import Mathlib

/- Shallow embedding of the Defect-Detection-System repository
   (src/image_processor.py and src/defect_detector.py).

   Modelling conventions:
   - Python ints are Int, Python floats are exact rationals.
   - External OpenCV routines whose output the repository consumes
     opaquely (the resize interpolation kernel, the blur kernels,
     contour extraction) enter as parameters or as abstract input
     data; routines whose arithmetic the repository logic depends on
     (cv2.dnn.NMSBoxes, cv2.copyMakeBorder, np.clip, astype, int())
     are embedded from their documented behaviour. -/

namespace DefectDetection

/-- Python int() applied to a float: truncation toward zero. -/
def pyInt (q : ℚ) : ℤ := if 0 ≤ q then ⌊q⌋ else ⌈q⌉

/-- The exact rational value of the IEEE-754 double np.pi. -/
def np_pi : ℚ := 884279719003555 / 281474976710656

/-- np.clip(q, lo, hi): clamp a value into the interval from lo to hi. -/
def np_clip (q lo hi : ℚ) : ℚ := min (max q lo) hi

/-- numpy astype(np.uint8) on a float value: truncate toward zero and
    reduce modulo 256. -/
def np_uint8 (q : ℚ) : ℤ := pyInt q % 256

/-! ## image_processor.py -/

/-- An image for the letterbox-resize model: explicit dimensions plus a
    total pixel lookup (value at row r, column c; out-of-range lookups
    are unconstrained). -/
structure Img where
  width : ℤ
  height : ℤ
  px : ℤ → ℤ → ℤ

/-- cv2.copyMakeBorder with BORDER_CONSTANT: grow the image by the four
    pad widths, filling the new border with the constant value. -/
def copyMakeBorder (img : Img) (top bottom left right : ℤ) (value : ℤ) : Img :=
  { width := left + img.width + right
    height := top + img.height + bottom
    px := fun r c =>
      if top ≤ r ∧ r < top + img.height ∧ left ≤ c ∧ c < left + img.width then
        img.px (r - top) (c - left)
      else value }

/-- Scale factor of ImageProcessor.resize:
    scale = min(target_width / width, target_height / height). -/
def letterboxScale (img : Img) (target_width target_height : ℤ) : ℚ :=
  min ((target_width : ℚ) / (img.width : ℚ)) ((target_height : ℚ) / (img.height : ℚ))

/-- new_width = int(width * scale) in ImageProcessor.resize. -/
def letterboxNewW (img : Img) (target_width target_height : ℤ) : ℤ :=
  pyInt ((img.width : ℚ) * letterboxScale img target_width target_height)

/-- new_height = int(height * scale) in ImageProcessor.resize. -/
def letterboxNewH (img : Img) (target_width target_height : ℤ) : ℤ :=
  pyInt ((img.height : ℚ) * letterboxScale img target_width target_height)

/-- pad_top = (target_height - new_height) // 2 (Python floor division). -/
def letterboxPadTop (img : Img) (target_width target_height : ℤ) : ℤ :=
  Int.fdiv (target_height - letterboxNewH img target_width target_height) 2

/-- pad_bottom = target_height - new_height - pad_top. -/
def letterboxPadBottom (img : Img) (target_width target_height : ℤ) : ℤ :=
  target_height - letterboxNewH img target_width target_height -
    letterboxPadTop img target_width target_height

/-- pad_left = (target_width - new_width) // 2 (Python floor division). -/
def letterboxPadLeft (img : Img) (target_width target_height : ℤ) : ℤ :=
  Int.fdiv (target_width - letterboxNewW img target_width target_height) 2

/-- pad_right = target_width - new_width - pad_left. -/
def letterboxPadRight (img : Img) (target_width target_height : ℤ) : ℤ :=
  target_width - letterboxNewW img target_width target_height -
    letterboxPadLeft img target_width target_height

/-- ImageProcessor.resize: aspect-preserving resize to
    (new_width, new_height) through the external interpolation routine
    cv2.resize (passed as the parameter cv2_resize), followed, when the
    scaled size differs from the target, by zero-valued constant
    padding computed as in the source. -/
def resize (cv2_resize : Img → ℤ → ℤ → Img) (img : Img)
    (target_width target_height : ℤ) : Img :=
  let new_width := letterboxNewW img target_width target_height
  let new_height := letterboxNewH img target_width target_height
  let resized := cv2_resize img new_width new_height
  if new_width ≠ target_width ∨ new_height ≠ target_height then
    copyMakeBorder resized
      (letterboxPadTop img target_width target_height)
      (letterboxPadBottom img target_width target_height)
      (letterboxPadLeft img target_width target_height)
      (letterboxPadRight img target_width target_height) 0
  else resized

/-- ImageProcessor.remove_noise: dispatch on the method string to one of
    the three external filters (passed as parameters), defaulting to the
    unchanged image for any other method string. -/
def remove_noise {α : Type} (gaussianBlur medianBlur bilateralFilter : α → α)
    (image : α) (method : String) : α :=
  if method = "gaussian" then gaussianBlur image
  else if method = "median" then medianBlur image
  else if method = "bilateral" then bilateralFilter image
  else image

/-- ImageProcessor.adjust_brightness on a pixel array (uint8 values as
    integers): convert to float, apply alpha * v + beta, clip to the
    range 0..255, convert back to uint8. The float32 arithmetic of the
    source is modelled exactly over the rationals. -/
def adjust_brightness (image : List (List ℤ)) (alpha beta : ℚ) : List (List ℤ) :=
  image.map (List.map (fun (v : ℤ) => np_uint8 (np_clip (alpha * (v : ℚ) + beta) 0 255)))

/-! ## defect_detector.py: data model -/

/-- A detection dictionary as built by DefectDetector: keys type,
    confidence, bbox (the bbox a four-element corner list
    x1, y1, x2, y2). -/
structure Detection where
  type : String
  confidence : ℚ
  bbox : List ℤ

deriving instance DecidableEq, Repr for Detection

/-- A contour as the detector observes it through the external OpenCV
    calls: cv2.contourArea, cv2.arcLength, and cv2.boundingRect
    (x, y, w, h with nonnegative integer coordinates). -/
structure Contour where
  area : ℚ
  perimeter : ℚ
  x : ℕ
  y : ℕ
  w : ℕ
  h : ℕ

deriving instance DecidableEq, Repr for Contour

/-- An axis-aligned rectangle in x, y, width, height form, as handed to
    cv2.dnn.NMSBoxes. -/
structure Rect where
  x : ℤ
  y : ℤ
  w : ℤ
  h : ℤ

deriving instance DecidableEq, Repr for Rect

/-- One surviving candidate of the YOLO path before NMS: its box, its
    kept class score, and its class index. -/
structure NmsCand where
  box : Rect
  score : ℚ
  class_id : ℕ

deriving instance DecidableEq, Repr for NmsCand

/-! ## defect_detector.py: YOLO path -/

/-- Auxiliary recursion of np.argmax: running index, best value, best
    index (first occurrence of the maximum wins). -/
def argmaxAux : List ℚ → ℕ → ℚ → ℕ → ℕ
  | [], _, _, best => best
  | v :: vs, i, bv, best =>
      if v > bv then argmaxAux vs (i + 1) v i else argmaxAux vs (i + 1) bv best

/-- np.argmax over a score vector: index of the first maximal entry
    (0 on the empty vector, on which numpy would raise; network output
    rows always carry at least one class score). -/
def argmaxIdx : List ℚ → ℕ
  | [] => 0
  | v :: vs => argmaxAux vs 1 v 0

/-- conf_threshold = 0.5 in DefectDetector._detect_with_yolo. -/
def conf_threshold : ℚ := 1 / 2

/-- nms_threshold = 0.4 in DefectDetector._detect_with_yolo. -/
def nms_threshold : ℚ := 2 / 5

/-- Area of a Rect as used by the OpenCV overlap computation. -/
def rectArea (a : Rect) : ℚ := (a.w : ℚ) * (a.h : ℚ)

/-- Width of the intersection of two rectangles (before clamping). -/
def interW (a b : Rect) : ℤ := min (a.x + a.w) (b.x + b.w) - max a.x b.x

/-- Height of the intersection of two rectangles (before clamping). -/
def interH (a b : Rect) : ℤ := min (a.y + a.h) (b.y + b.h) - max a.y b.y

/-- Area of the intersection rectangle, zero when the rectangles are
    disjoint. -/
def interArea (a b : Rect) : ℚ := ((max 0 (interW a b) : ℤ) : ℚ) * ((max 0 (interH a b) : ℤ) : ℚ)

/-- Intersection-over-union overlap as computed inside cv2.dnn.NMSBoxes
    (rectOverlap = 1 - jaccardDistance): intersection area divided by
    union area, with the degenerate all-empty case reported as full
    overlap 1, exactly as the OpenCV jaccardDistance guard does. -/
def iouQ (a b : Rect) : ℚ :=
  if rectArea a + rectArea b ≤ 0 then 1
  else interArea a b / (rectArea a + rectArea b - interArea a b)

/-- Stable descending insertion by score: an incoming candidate passes
    every strictly greater score and stops before the first score not
    above its own, so earlier candidates win ties. -/
def insertDesc (c : NmsCand) : List NmsCand → List NmsCand
  | [] => [c]
  | d :: ds => if d.score > c.score then d :: insertDesc c ds else c :: d :: ds

/-- Stable sort of the candidates by score, descending (the
    std::stable_sort step inside cv2.dnn.NMSBoxes). -/
def sortByScoreDesc (l : List NmsCand) : List NmsCand := l.foldr insertDesc []

/-- Greedy suppression loop of cv2.dnn.NMSBoxes: walk the sorted
    candidates, keep one exactly when its overlap with every already
    kept box stays at or below the threshold. The kept list is built in
    reverse and flipped at the end to preserve selection order. -/
def nmsFast (thr : ℚ) : List NmsCand → List NmsCand → List NmsCand
  | kept, [] => kept.reverse
  | kept, c :: rest =>
      if ∀ k ∈ kept, iouQ k.box c.box ≤ thr then nmsFast thr (c :: kept) rest
      else nmsFast thr kept rest

/-- cv2.dnn.NMSBoxes: filter out candidates whose score does not exceed
    the score threshold, sort by score descending (stable), then run the
    greedy suppression loop. OpenCV returns the kept indices; the caller
    immediately maps every index back to its box, confidence and class
    id, so the embedding returns the kept candidates directly. -/
def NMSBoxes (cands : List NmsCand) (score_threshold nms_threshold : ℚ) : List NmsCand :=
  nmsFast nms_threshold [] (sortByScoreDesc (cands.filter (fun c => score_threshold < c.score)))

/-- Candidate extraction of DefectDetector._detect_with_yolo: for one
    raw output row (a flat float vector: cx, cy, w, h, objectness,
    class scores), take the best class score; when it exceeds
    conf_threshold convert the normalized center box to an absolute
    pixel x, y, w, h box exactly as the source does with int(). -/
def yoloCandidate (width height : ℕ) (det : List ℚ) : Option NmsCand :=
  let scores := det.drop 5
  let class_id := argmaxIdx scores
  let confidence := scores.getD class_id 0
  if confidence > conf_threshold then
    let center_x := pyInt (det.getD 0 0 * (width : ℚ))
    let center_y := pyInt (det.getD 1 0 * (height : ℚ))
    let w := pyInt (det.getD 2 0 * (width : ℚ))
    let h := pyInt (det.getD 3 0 * (height : ℚ))
    let x := pyInt ((center_x : ℚ) - (w : ℚ) / 2)
    let y := pyInt ((center_y : ℚ) - (h : ℚ) / 2)
    some ⟨⟨x, y, w, h⟩, confidence, class_id⟩
  else none

/-- Resolution of the class name: the class list entry when the index
    is in range, "Unknown" otherwise. -/
def resolveClassName (classes : List String) (class_id : ℕ) : String :=
  if class_id < classes.length then classes.getD class_id "Unknown" else "Unknown"

/-- DefectDetector._detect_with_yolo: flatten the per-layer outputs,
    extract the candidates above the confidence threshold, run
    cv2.dnn.NMSBoxes, and emit one detection dictionary per surviving
    candidate with the bbox in corner form x, y, x + w, y + h. The
    network forward pass itself is external; its raw output rows are the
    input. -/
def detect_with_yolo (classes : List String) (outputs : List (List (List ℚ)))
    (width height : ℕ) : List Detection :=
  let cands := outputs.flatten.filterMap (yoloCandidate width height)
  (NMSBoxes cands conf_threshold nms_threshold).map (fun c =>
    { type := resolveClassName classes c.class_id
      confidence := c.score
      bbox := [c.box.x, c.box.y, c.box.x + c.box.w, c.box.y + c.box.h] })

/-! ## defect_detector.py: classical paths -/

/-- aspect ratio of a contour bounding rectangle in
    DefectDetector._detect_cracks: max(w, h) / max(min(w, h), 1),
    Python true division. -/
def aspectRatioQ (c : Contour) : ℚ :=
  ((max c.w c.h : ℕ) : ℚ) / ((max (min c.w c.h) 1 : ℕ) : ℚ)

/-- The detection dictionary DefectDetector._detect_cracks appends for a
    qualifying contour. -/
def crackDetection (c : Contour) : Detection :=
  { type := "Crack"
    confidence := min (9 / 10) (c.area / 1000)
    bbox := [(c.x : ℤ), (c.y : ℤ), (c.x : ℤ) + (c.w : ℤ), (c.y : ℤ) + (c.h : ℤ)] }

/-- DefectDetector._detect_cracks after the external image pipeline
    (blur, Canny, dilate, close, findContours): filter the extracted
    contours by area > 100 (min_area) and aspect ratio > 3, and emit a
    Crack detection for each survivor. -/
def detect_cracks (contours : List Contour) : List Detection :=
  contours.filterMap (fun c =>
    if c.area > 100 then
      if aspectRatioQ c > 3 then some (crackDetection c) else none
    else none)

/-- circularity = 4 * np.pi * area / perimeter ** 2 if perimeter > 0
    else 0, from DefectDetector._detect_surface_irregularities. -/
def circularity (c : Contour) : ℚ :=
  if c.perimeter > 0 then 4 * np_pi * c.area / c.perimeter ^ 2 else 0

/-- The detection dictionary
    DefectDetector._detect_surface_irregularities appends for a
    qualifying contour. -/
def irregularityDetection (c : Contour) : Detection :=
  { type := "Surface Irregularity"
    confidence := min (4 / 5) (c.area / 5000)
    bbox := [(c.x : ℤ), (c.y : ℤ), (c.x : ℤ) + (c.w : ℤ), (c.y : ℤ) + (c.h : ℤ)] }

/-- DefectDetector._detect_surface_irregularities after the external
    adaptive threshold and findContours: keep contours with
    200 < area < 50000 (min_area, max_area) and circularity < 0.5. -/
def detect_surface_irregularities (contours : List Contour) : List Detection :=
  contours.filterMap (fun c =>
    if 200 < c.area ∧ c.area < 50000 then
      if circularity c < 1 / 2 then some (irregularityDetection c) else none
    else none)

/-- DefectDetector._detect_with_classical: crack detections first, then
    surface-irregularity detections, both over contours extracted from
    the grayscale derivative of the image. -/
def detect_with_classical (crack_contours irreg_contours : List Contour) : List Detection :=
  detect_cracks crack_contours ++ detect_surface_irregularities irreg_contours

/-- DefectDetector._load_yolo_model reduced to its observable state:
    use_yolo is set exactly when both the topology file and the weights
    file exist (a load failure inside the try block also leaves it
    False; absence of the class-name list does not gate it). -/
def load_yolo_model (config_exists weights_exists : Bool) : Bool :=
  config_exists && weights_exists

/-- DefectDetector.detect: the model path contributes only when
    use_yolo is set, followed unconditionally by the classical
    detections. -/
def detect (use_yolo : Bool) (classes : List String) (outputs : List (List (List ℚ)))
    (width height : ℕ) (crack_contours irreg_contours : List Contour) : List Detection :=
  (if use_yolo then detect_with_yolo classes outputs width height else []) ++
    detect_with_classical crack_contours irreg_contours

/-! ## defect_detector.py: annotator (draw_detections) -/

/-- A Python value sitting in the confidence slot of a detection
    dictionary: either numeric or a string (the non-numeric malformed
    case the spec discusses). -/
inductive PyVal
  | num (q : ℚ)
  | str (s : String)

deriving instance DecidableEq, Repr for PyVal

/-- A detection dictionary as the annotator receives it: the bbox list
    of arbitrary arity, the type tag, and the confidence entry (none
    when the key is absent, in which case det.get defaults it). -/
structure RawDetection where
  bbox : List ℤ
  type : String
  confidence : Option PyVal

deriving instance DecidableEq, Repr for RawDetection

/-- The fixed color palette of draw_detections; unknown types default
    to white, via color_map.get(defect_type, (255, 255, 255)). -/
def color_map (defect_type : String) : ℤ × ℤ × ℤ :=
  if defect_type = "Crack" then (255, 0, 0)
  else if defect_type = "Surface Irregularity" then (0, 255, 0)
  else if defect_type = "Dent" then (0, 0, 255)
  else if defect_type = "Leak" then (255, 255, 0)
  else (255, 255, 255)

/-- The drawing work of one loop iteration of draw_detections, reduced
    to the data handed to the external cv2 drawing calls: the unpacked
    corners, the resolved color, the type tag and the numeric
    confidence of the label. -/
structure AnnOp where
  x1 : ℤ
  y1 : ℤ
  x2 : ℤ
  y2 : ℤ
  color : ℤ × ℤ × ℤ
  label_type : String
  label_confidence : ℚ

deriving instance DecidableEq, Repr for AnnOp

/-- One iteration of the draw_detections loop. The statement
    x1, y1, x2, y2 = bbox raises ValueError unless the bbox has exactly
    four entries; det.get defaults a missing confidence key to 0.0; the
    f-string format specifier .2f raises on a non-numeric confidence.
    The cv2 drawing calls themselves (rectangle, getTextSize, putText)
    never raise on integer inputs and are summarized by the emitted
    AnnOp. -/
def draw_detection_step (det : RawDetection) : Except String AnnOp :=
  match det.bbox with
  | [x1, y1, x2, y2] =>
      match det.confidence.getD (PyVal.num 0) with
      | PyVal.num q =>
          Except.ok ⟨x1, y1, x2, y2, color_map det.type, det.type, q⟩
      | PyVal.str _ =>
          Except.error "ValueError: unknown format code f for object of type str"
  | _ => Except.error "ValueError: cannot unpack bbox into x1, y1, x2, y2"

/-- DefectDetector.draw_detections: iterate over the detections in
    order; the first raising iteration aborts the whole call (there is
    no try/except around the loop), otherwise the annotated copy
    carries one drawing op per detection. -/
def draw_detections : List RawDetection → Except String (List AnnOp)
  | [] => Except.ok []
  | d :: ds =>
      match draw_detection_step d with
      | Except.ok op => (draw_detections ds).map (fun ops => op :: ops)
      | Except.error e => Except.error e

/-- True exactly when an annotator call returned normally instead of
    raising. -/
def drawOk (r : Except String (List AnnOp)) : Bool :=
  match r with
  | Except.ok _ => true
  | Except.error _ => false

/-- A detection dictionary the annotator digests without raising:
    bbox of arity four and a confidence slot that is absent or
    numeric. -/
def annotatorSafe (d : RawDetection) : Prop :=
  d.bbox.length = 4 ∧ ∀ s, d.confidence ≠ some (PyVal.str s)

/-! ## Spec-side predicates -/

/-- Stated from the spec (section 3 Data Model): the Detection
    invariant 0 ≤ confidence ≤ 1, x1 < x2, y1 < y2, and the box within
    the image bounds (its pixel extent inside 0..width times
    0..height). -/
def specDetectionInvariant (width height : ℕ) (d : Detection) : Prop :=
  0 ≤ d.confidence ∧ d.confidence ≤ 1 ∧
    ∃ x1 y1 x2 y2 : ℤ, d.bbox = [x1, y1, x2, y2] ∧
      x1 < x2 ∧ y1 < y2 ∧ 0 ≤ x1 ∧ x2 ≤ (width : ℤ) ∧ 0 ≤ y1 ∧ y2 ≤ (height : ℤ)

/-- What cv2.findContours and cv2.boundingRect guarantee for contours
    extracted from a width times height mask: a nonempty bounding
    rectangle lying inside the image. -/
def contourInImage (c : Contour) (width height : ℕ) : Prop :=
  1 ≤ c.w ∧ 1 ≤ c.h ∧ c.x + c.w ≤ width ∧ c.y + c.h ≤ height

/-- Rectangle recovered from a corner-form bbox list, for stating the
    post-NMS overlap invariant on emitted detections. -/
def rectOfBBox : List ℤ → Rect
  | [x1, y1, x2, y2] => ⟨x1, y1, x2 - x1, y2 - y1⟩
  | _ => ⟨0, 0, 0, 0⟩

/-- Overlap of two detections, measured on their bboxes with the same
    IoU the NMS step uses. -/
def detIoU (d1 d2 : Detection) : ℚ := iouQ (rectOfBBox d1.bbox) (rectOfBBox d2.bbox)

/-! ## Helper lemmas -/

theorem pyInt_intCast (n : ℤ) : pyInt (n : ℚ) = n := by
  simp [pyInt, Int.floor_intCast, Int.ceil_intCast]

theorem pyInt_nonneg {q : ℚ} (h : 0 ≤ q) : 0 ≤ pyInt q := by
  rw [pyInt, if_pos h]
  exact Int.floor_nonneg.mpr h

theorem pyInt_le_intCast {q : ℚ} {n : ℤ} (h0 : 0 ≤ q) (h : q ≤ (n : ℚ)) : pyInt q ≤ n := by
  rw [pyInt, if_pos h0]
  calc ⌊q⌋ ≤ ⌊(n : ℚ)⌋ := Int.floor_mono h
    _ = n := Int.floor_intCast n

theorem fdiv_two_eq_ediv (d : ℤ) : Int.fdiv d 2 = d / 2 :=
  Int.fdiv_eq_ediv d (by norm_num)

theorem interW_comm (a b : Rect) : interW a b = interW b a := by
  rw [interW, interW, min_comm, max_comm]

theorem interH_comm (a b : Rect) : interH a b = interH b a := by
  rw [interH, interH, min_comm, max_comm]

theorem interArea_comm (a b : Rect) : interArea a b = interArea b a := by
  rw [interArea, interArea, interW_comm, interH_comm]

theorem iouQ_comm (a b : Rect) : iouQ a b = iouQ b a := by
  unfold iouQ
  rw [interArea_comm, add_comm (rectArea a) (rectArea b)]

theorem rectOfBBox_corner (b : Rect) : rectOfBBox [b.x, b.y, b.x + b.w, b.y + b.h] = b := by
  obtain ⟨x, y, w, h⟩ := b
  simp [rectOfBBox]

theorem nmsFast_pairwise (thr : ℚ) :
    ∀ (todo kept : List NmsCand),
      kept.Pairwise (fun a b => iouQ a.box b.box ≤ thr ∧ iouQ b.box a.box ≤ thr) →
      (nmsFast thr kept todo).Pairwise
        (fun a b => iouQ a.box b.box ≤ thr ∧ iouQ b.box a.box ≤ thr)
  | [], kept, h => by
      simpa [nmsFast] using
        (List.pairwise_reverse.mpr (h.imp fun hab => ⟨hab.2, hab.1⟩))
  | c :: rest, kept, h => by
      simp only [nmsFast]
      split_ifs with hall
      · exact nmsFast_pairwise thr rest (c :: kept)
          (List.pairwise_cons.mpr
            ⟨fun k hk => ⟨by rw [iouQ_comm]; exact hall k hk, hall k hk⟩, h⟩)
      · exact nmsFast_pairwise thr rest kept h

theorem mem_detect_cracks {cs : List Contour} {d : Detection} :
    d ∈ detect_cracks cs ↔
      ∃ c ∈ cs, c.area > 100 ∧ aspectRatioQ c > 3 ∧ d = crackDetection c := by
  simp only [detect_cracks, List.mem_filterMap]
  constructor
  · rintro ⟨c, hc, hf⟩
    split_ifs at hf with h1 h2
    · exact ⟨c, hc, h1, h2, (Option.some.inj hf).symm⟩
  · rintro ⟨c, hc, h1, h2, rfl⟩
    exact ⟨c, hc, by rw [if_pos h1, if_pos h2]⟩

theorem mem_detect_surface_irregularities {cs : List Contour} {d : Detection} :
    d ∈ detect_surface_irregularities cs ↔
      ∃ c ∈ cs, (200 < c.area ∧ c.area < 50000) ∧ circularity c < 1 / 2 ∧
        d = irregularityDetection c := by
  simp only [detect_surface_irregularities, List.mem_filterMap]
  constructor
  · rintro ⟨c, hc, hf⟩
    split_ifs at hf with h1 h2
    · exact ⟨c, hc, h1, h2, (Option.some.inj hf).symm⟩
  · rintro ⟨c, hc, h1, h2, rfl⟩
    exact ⟨c, hc, by rw [if_pos h1, if_pos h2]⟩

theorem np_uint8_clip_id (v : ℤ) (h0 : 0 ≤ v) (h255 : v ≤ 255) :
    np_uint8 (np_clip (1 * (v : ℚ) + 0) 0 255) = v := by
  have hq0 : (0 : ℚ) ≤ (v : ℚ) := by exact_mod_cast h0
  have hq255 : ((v : ℚ)) ≤ 255 := by exact_mod_cast h255
  have hclip : np_clip (1 * (v : ℚ) + 0) 0 255 = (v : ℚ) := by
    rw [np_clip, one_mul, add_zero, max_eq_left hq0, min_eq_left hq255]
  rw [hclip, np_uint8, pyInt_intCast]
  exact Int.emod_eq_of_lt h0 (by omega)

theorem map_pixel_id (row : List ℤ) (h : ∀ v ∈ row, 0 ≤ v ∧ v ≤ 255) :
    row.map (fun (v : ℤ) => np_uint8 (np_clip (1 * (v : ℚ) + 0) 0 255)) = row := by
  induction row with
  | nil => rfl
  | cons v vs ih =>
      rw [List.map_cons, np_uint8_clip_id v (h v (by simp)).1 (h v (by simp)).2,
        ih (fun u hu => h u (by simp [hu]))]

theorem length_eq_four_iff {α : Type} : ∀ {l : List α},
    l.length = 4 ↔ ∃ a b c d, l = [a, b, c, d]
  | [] => by simp
  | [a] => by simp
  | [a, b] => by simp
  | [a, b, c] => by simp
  | [a, b, c, d] => by simp
  | a :: b :: c :: d :: e :: rest => by
      simp only [List.length_cons, List.cons.injEq]
      constructor
      · omega
      · rintro ⟨_, _, _, _, _, _, _, h⟩
        exact absurd h (by simp)

theorem draw_detection_step_ok_iff (d : RawDetection) :
    (∃ op, draw_detection_step d = Except.ok op) ↔ annotatorSafe d := by
  obtain ⟨bbox, ty, conf⟩ := d
  constructor
  · rintro ⟨op, hop⟩
    rw [draw_detection_step] at hop
    constructor
    · rcases bbox with _ | ⟨a, _ | ⟨b, _ | ⟨c, _ | ⟨e, _ | ⟨f, rest⟩⟩⟩⟩⟩ <;>
        first
          | rfl
          | exact absurd hop (by simp)
    · intro s hs
      simp only at hs
      subst hs
      rcases bbox with _ | ⟨a, _ | ⟨b, _ | ⟨c, _ | ⟨e, _ | ⟨f, rest⟩⟩⟩⟩⟩ <;>
        exact absurd hop (by simp [Option.getD])
  · rintro ⟨hlen, hconf⟩
    obtain ⟨a, b, c, e, rfl⟩ := length_eq_four_iff.mp hlen
    rw [draw_detection_step]
    rcases conf with - | cv
    · exact ⟨_, rfl⟩
    · rcases cv with q | s
      · exact ⟨_, rfl⟩
      · exact absurd rfl (hconf s)

theorem draw_detection_step_error_of_not_safe (d : RawDetection)
    (h : ¬ annotatorSafe d) : ∃ e, draw_detection_step d = Except.error e := by
  rcases he : draw_detection_step d with e | op
  · exact ⟨e, rfl⟩
  · exact absurd (draw_detection_step_ok_iff d |>.mp ⟨op, he⟩) h

/-! ## Claim theorems -/

/-- C3: the crack path emits a Detection if and only if the contour has
    area greater than 100 and bounding-rectangle aspect ratio
    max(w, h) / max(min(w, h), 1) greater than 3; the emitted Detection
    has type Crack and confidence min(0.9, area / 1000). -/
theorem crack_path_characterization (cs : List Contour) (d : Detection) :
    d ∈ detect_cracks cs ↔
      ∃ c ∈ cs, c.area > 100 ∧ aspectRatioQ c > 3 ∧
        d = { type := "Crack", confidence := min (9 / 10) (c.area / 1000),
              bbox := [(c.x : ℤ), (c.y : ℤ), (c.x : ℤ) + (c.w : ℤ), (c.y : ℤ) + (c.h : ℤ)] } :=
  mem_detect_cracks

/-- C4: with both model files absent the loader leaves use_yolo unset,
    the model path contributes zero detections with no error, and
    detect returns exactly the classical detections. -/
theorem model_files_absent_classical_only (classes : List String)
    (outputs : List (List (List ℚ))) (width height : ℕ)
    (crack_contours irreg_contours : List Contour) :
    detect (load_yolo_model false false) classes outputs width height
        crack_contours irreg_contours =
      detect_with_classical crack_contours irreg_contours := by
  simp [detect, load_yolo_model]

/-- C5: detect is the pure concatenation of the per-path detection
    lists in fixed order, model path, then crack path, then
    irregularity path, with no cross-path deduplication, re-sorting or
    filtering. -/
theorem detect_is_path_concatenation (use_yolo : Bool) (classes : List String)
    (outputs : List (List (List ℚ))) (width height : ℕ)
    (crack_contours irreg_contours : List Contour) :
    detect use_yolo classes outputs width height crack_contours irreg_contours =
      (if use_yolo then detect_with_yolo classes outputs width height else []) ++
        detect_cracks crack_contours ++
        detect_surface_irregularities irreg_contours := by
  rw [detect, detect_with_classical, List.append_assoc]

/-- C9: the guard perimeter > 0 makes the circularity computation
    total; a contour with zero perimeter gets circularity 0, which is
    below the 0.5 threshold. -/
theorem circularity_total_zero_perimeter (c : Contour) (h : c.perimeter = 0) :
    circularity c = 0 ∧ circularity c < 1 / 2 := by
  have h0 : ¬ c.perimeter > 0 := by rw [h]; exact lt_irrefl 0
  rw [circularity, if_neg h0]
  norm_num

/-- Witness for C9 at a concrete zero-perimeter contour. -/
theorem circularity_total_zero_perimeter_witness :
    circularity ⟨0, 0, 0, 0, 0, 0⟩ = 0 ∧ circularity ⟨0, 0, 0, 0, 0, 0⟩ < 1 / 2 :=
  circularity_total_zero_perimeter ⟨0, 0, 0, 0, 0, 0⟩ rfl

/-- C10: remove_noise with a method string outside gaussian, median and
    bilateral returns the input image unchanged, neither raising nor
    applying a default filter. -/
theorem remove_noise_unknown_method_identity {α : Type}
    (gaussianBlur medianBlur bilateralFilter : α → α) (image : α) (method : String)
    (h1 : method ≠ "gaussian") (h2 : method ≠ "median") (h3 : method ≠ "bilateral") :
    remove_noise gaussianBlur medianBlur bilateralFilter image method = image := by
  rw [remove_noise, if_neg h1, if_neg h2, if_neg h3]

/-- Witness for C10 at the concrete method string box. -/
theorem remove_noise_unknown_method_identity_witness :
    remove_noise (fun v : ℤ => v + 1) (fun v => v + 2) (fun v => v + 3) 7 "box" = 7 :=
  remove_noise_unknown_method_identity _ _ _ 7 "box" (by decide) (by decide) (by decide)

/-- C8: adjust_brightness with the default alpha = 1 and beta = 0 is
    the identity on every image whose pixel values lie in 0..255. -/
theorem adjust_brightness_default_identity (image : List (List ℤ))
    (h : ∀ row ∈ image, ∀ v ∈ row, 0 ≤ v ∧ v ≤ 255) :
    adjust_brightness image 1 0 = image := by
  rw [adjust_brightness]
  induction image with
  | nil => rfl
  | cons row rows ih =>
      rw [List.map_cons, map_pixel_id row (h row (by simp)),
        ih (fun r hr => h r (by simp [hr]))]

/-- Witness for C8 at a concrete uint8 image. -/
theorem adjust_brightness_default_identity_witness :
    adjust_brightness [[0, 128, 255], [17, 42, 99]] 1 0 = [[0, 128, 255], [17, 42, 99]] :=
  adjust_brightness_default_identity [[0, 128, 255], [17, 42, 99]] (by decide)

/-- C2 counterexample: a malformed detection (bbox of arity three)
    makes draw_detections abort with an error instead of returning an
    annotated image. -/
theorem annotator_aborts_on_malformed_bbox :
    drawOk (draw_detections [⟨[0, 0, 5], "Crack", some (PyVal.num (1 / 2))⟩]) = false := rfl

/-- C2 (amended): draw_detections returns an annotated image exactly
    when every detection is well formed (bbox arity four and no
    non-numeric confidence); any malformed detection aborts the call
    with an error. The only defensive default is a missing confidence
    key, read as 0.0. -/
theorem draw_detections_ok_iff (dets : List RawDetection) :
    drawOk (draw_detections dets) = true ↔ ∀ d ∈ dets, annotatorSafe d := by
  induction dets with
  | nil => simp [draw_detections, drawOk]
  | cons d ds ih =>
      rcases he : draw_detection_step d with e | op <;> rw [draw_detections, he]
      · have hnotsafe : ¬ annotatorSafe d := by
          intro hs
          obtain ⟨op, hop⟩ := (draw_detection_step_ok_iff d).mpr hs
          rw [he] at hop
          exact absurd hop (by simp)
        simp [drawOk, List.forall_mem_cons, hnotsafe]
      · have hsafe : annotatorSafe d := (draw_detection_step_ok_iff d).mp ⟨op, he⟩
        have hmap : drawOk ((draw_detections ds).map (fun ops => op :: ops)) =
            drawOk (draw_detections ds) := by
          rcases draw_detections ds with e | ops <;> rfl
        simp only [hmap, ih, List.forall_mem_cons, hsafe, true_and]

/-- C1 counterexample: the model path applies no clamping, so detect
    can emit a detection whose bbox is degenerate; a raw network row
    with zero extent yields bbox 320, 320, 320, 320, violating
    x1 < x2. -/
theorem model_path_violates_invariant :
    ¬ ∀ d ∈ detect true [] [[[1/2, 1/2, 0, 0, 0, 9/10]]] 640 640 [] [],
        specDetectionInvariant 640 640 d := by
  have heval : detect true [] [[[1/2, 1/2, 0, 0, 0, 9/10]]] 640 640 [] [] =
      [{ type := "Unknown", confidence := 9/10, bbox := [320, 320, 320, 320] }] := by
    norm_num [detect, detect_with_yolo, detect_with_classical, detect_cracks,
      detect_surface_irregularities, yoloCandidate, argmaxIdx, argmaxAux, NMSBoxes,
      sortByScoreDesc, insertDesc, nmsFast, resolveClassName, pyInt, conf_threshold,
      nms_threshold, List.filterMap, List.getD]
  intro h
  have hd := h { type := "Unknown", confidence := 9/10, bbox := [320, 320, 320, 320] }
    (by rw [heval]; exact List.mem_singleton_self _)
  obtain ⟨-, -, x1, y1, x2, y2, hbb, hx, -⟩ := hd
  simp only [List.cons.injEq] at hbb
  omega

/-- C1 (amended): every detection emitted by the classical paths
    satisfies the invariant 0 ≤ confidence ≤ 1, x1 < x2, y1 < y2 and
    bbox inside the image, given that each extracted contour has a
    nonempty bounding rectangle inside the image (which findContours
    and boundingRect guarantee); the model path performs no clamping
    and can violate the invariant. -/
theorem classical_paths_detection_invariant (width height : ℕ)
    (crack_contours irreg_contours : List Contour)
    (hcs : ∀ c ∈ crack_contours, contourInImage c width height)
    (his : ∀ c ∈ irreg_contours, contourInImage c width height) :
    ∀ d ∈ detect_with_classical crack_contours irreg_contours,
      specDetectionInvariant width height d := by
  intro d hd
  rw [detect_with_classical, List.mem_append] at hd
  rcases hd with hd | hd
  · obtain ⟨c, hc, harea, -, rfl⟩ := mem_detect_cracks.mp hd
    obtain ⟨hw, hh, hxw, hyh⟩ := hcs c hc
    refine ⟨le_min (by norm_num) (div_nonneg (by linarith) (by norm_num)),
      (min_le_left _ _).trans (by norm_num),
      (c.x : ℤ), (c.y : ℤ), (c.x : ℤ) + (c.w : ℤ), (c.y : ℤ) + (c.h : ℤ),
      rfl, ?_, ?_, ?_, ?_, ?_, ?_⟩ <;> omega
  · obtain ⟨c, hc, ⟨hlo, -⟩, -, rfl⟩ := mem_detect_surface_irregularities.mp hd
    obtain ⟨hw, hh, hxw, hyh⟩ := his c hc
    refine ⟨le_min (by norm_num) (div_nonneg (by linarith) (by norm_num)),
      (min_le_left _ _).trans (by norm_num),
      (c.x : ℤ), (c.y : ℤ), (c.x : ℤ) + (c.w : ℤ), (c.y : ℤ) + (c.h : ℤ),
      rfl, ?_, ?_, ?_, ?_, ?_, ?_⟩ <;> omega

/-- Witness for C1 (amended) at concrete contour lists. -/
theorem classical_paths_detection_invariant_witness :
    (∀ c ∈ [(⟨500, 120, 10, 10, 100, 5⟩ : Contour)], contourInImage c 640 640) ∧
    (∀ c ∈ [(⟨300, 90, 5, 5, 30, 30⟩ : Contour)], contourInImage c 640 640) ∧
    ∀ d ∈ detect_with_classical [⟨500, 120, 10, 10, 100, 5⟩] [⟨300, 90, 5, 5, 30, 30⟩],
      specDetectionInvariant 640 640 d :=
  ⟨by norm_num [contourInImage], by norm_num [contourInImage],
    classical_paths_detection_invariant 640 640 _ _
      (by norm_num [contourInImage]) (by norm_num [contourInImage])⟩

/-- C7: after NMS with IoU threshold 0.4, no two detections emitted by
    the model path in one invocation have pairwise IoU above 0.4,
    regardless of class label. -/
theorem model_path_nms_pairwise_iou (classes : List String)
    (outputs : List (List (List ℚ))) (width height : ℕ) :
    (detect_with_yolo classes outputs width height).Pairwise
      (fun d1 d2 => detIoU d1 d2 ≤ 2 / 5 ∧ detIoU d2 d1 ≤ 2 / 5) := by
  simp only [detect_with_yolo, NMSBoxes]
  rw [List.pairwise_map]
  refine (nmsFast_pairwise nms_threshold _ [] List.Pairwise.nil).imp ?_
  intro a b hab
  simp only [detIoU, rectOfBBox_corner]
  exact hab

/-- C6: the letterbox resize produces an image of exactly the
    configured target width and height for every input of positive
    dimensions, with the zero-valued padding split as evenly as
    possible between opposing sides and any odd remainder on the
    trailing bottom or right side. -/
theorem resize_letterbox_exact_target (cv2_resize : Img → ℤ → ℤ → Img) (img : Img)
    (target_width target_height : ℤ)
    (hw : 0 < img.width) (hh : 0 < img.height)
    (htw : 0 < target_width) (hth : 0 < target_height)
    (hcv : ∀ a u v, (cv2_resize a u v).width = u ∧ (cv2_resize a u v).height = v) :
    (resize cv2_resize img target_width target_height).width = target_width ∧
    (resize cv2_resize img target_width target_height).height = target_height ∧
    letterboxPadTop img target_width target_height +
        letterboxPadBottom img target_width target_height =
      target_height - letterboxNewH img target_width target_height ∧
    0 ≤ letterboxPadTop img target_width target_height ∧
    (letterboxPadBottom img target_width target_height =
        letterboxPadTop img target_width target_height ∨
      letterboxPadBottom img target_width target_height =
        letterboxPadTop img target_width target_height + 1) ∧
    letterboxPadLeft img target_width target_height +
        letterboxPadRight img target_width target_height =
      target_width - letterboxNewW img target_width target_height ∧
    0 ≤ letterboxPadLeft img target_width target_height ∧
    (letterboxPadRight img target_width target_height =
        letterboxPadLeft img target_width target_height ∨
      letterboxPadRight img target_width target_height =
        letterboxPadLeft img target_width target_height + 1) ∧
    ∀ r c : ℤ, 0 ≤ r → r < target_height → 0 ≤ c → c < target_width →
      (r < letterboxPadTop img target_width target_height ∨
        letterboxPadTop img target_width target_height +
          letterboxNewH img target_width target_height ≤ r ∨
        c < letterboxPadLeft img target_width target_height ∨
        letterboxPadLeft img target_width target_height +
          letterboxNewW img target_width target_height ≤ c) →
      (resize cv2_resize img target_width target_height).px r c = 0 := by
  have hwQ : (0 : ℚ) < (img.width : ℚ) := by exact_mod_cast hw
  have hhQ : (0 : ℚ) < (img.height : ℚ) := by exact_mod_cast hh
  have htwQ : (0 : ℚ) < (target_width : ℚ) := by exact_mod_cast htw
  have hthQ : (0 : ℚ) < (target_height : ℚ) := by exact_mod_cast hth
  have hscale : 0 ≤ letterboxScale img target_width target_height :=
    le_min (div_nonneg htwQ.le hwQ.le) (div_nonneg hthQ.le hhQ.le)
  have hnw0 : 0 ≤ letterboxNewW img target_width target_height :=
    pyInt_nonneg (mul_nonneg hwQ.le hscale)
  have hnh0 : 0 ≤ letterboxNewH img target_width target_height :=
    pyInt_nonneg (mul_nonneg hhQ.le hscale)
  have hnwle : letterboxNewW img target_width target_height ≤ target_width := by
    apply pyInt_le_intCast (mul_nonneg hwQ.le hscale)
    calc (img.width : ℚ) * letterboxScale img target_width target_height
        ≤ (img.width : ℚ) * ((target_width : ℚ) / (img.width : ℚ)) :=
          mul_le_mul_of_nonneg_left (min_le_left _ _) hwQ.le
      _ = (target_width : ℚ) := by field_simp
  have hnhle : letterboxNewH img target_width target_height ≤ target_height := by
    apply pyInt_le_intCast (mul_nonneg hhQ.le hscale)
    calc (img.height : ℚ) * letterboxScale img target_width target_height
        ≤ (img.height : ℚ) * ((target_height : ℚ) / (img.height : ℚ)) :=
          mul_le_mul_of_nonneg_left (min_le_right _ _) hhQ.le
      _ = (target_height : ℚ) := by field_simp
  have hpbE : letterboxPadBottom img target_width target_height =
      target_height - letterboxNewH img target_width target_height -
        letterboxPadTop img target_width target_height := rfl
  have hprE : letterboxPadRight img target_width target_height =
      target_width - letterboxNewW img target_width target_height -
        letterboxPadLeft img target_width target_height := rfl
  have hptE : letterboxPadTop img target_width target_height =
      (target_height - letterboxNewH img target_width target_height) / 2 :=
    fdiv_two_eq_ediv _
  have hplE : letterboxPadLeft img target_width target_height =
      (target_width - letterboxNewW img target_width target_height) / 2 :=
    fdiv_two_eq_ediv _
  by_cases hb : letterboxNewW img target_width target_height ≠ target_width ∨
      letterboxNewH img target_width target_height ≠ target_height
  · have hres : resize cv2_resize img target_width target_height =
        copyMakeBorder
          (cv2_resize img (letterboxNewW img target_width target_height)
            (letterboxNewH img target_width target_height))
          (letterboxPadTop img target_width target_height)
          (letterboxPadBottom img target_width target_height)
          (letterboxPadLeft img target_width target_height)
          (letterboxPadRight img target_width target_height) 0 := by
      simp only [resize]
      rw [if_pos hb]
    refine ⟨?_, ?_, by omega, by omega, by omega, by omega, by omega, by omega, ?_⟩
    · rw [hres]
      simp only [copyMakeBorder]
      rw [(hcv img _ _).1]
      omega
    · rw [hres]
      simp only [copyMakeBorder]
      rw [(hcv img _ _).2]
      omega
    · intro r c hr0 hrth hc0 hctw hdisj
      rw [hres]
      simp only [copyMakeBorder]
      rw [(hcv img _ _).1, (hcv img _ _).2]
      rw [if_neg (by omega)]
  · push_neg at hb
    have hres : resize cv2_resize img target_width target_height =
        cv2_resize img (letterboxNewW img target_width target_height)
          (letterboxNewH img target_width target_height) := by
      simp only [resize]
      rw [if_neg (by simp [hb.1, hb.2])]
    refine ⟨?_, ?_, by omega, by omega, by omega, by omega, by omega, by omega, ?_⟩
    · rw [hres, (hcv img _ _).1, hb.1]
    · rw [hres, (hcv img _ _).2, hb.2]
    · intro r c hr0 hrth hc0 hctw hdisj
      exfalso
      omega

/-- Witness for C6 at a concrete 100 by 50 image resized to 640 by 640
    under a dimension-respecting interpolation stub. -/
theorem resize_letterbox_exact_target_witness :
    (resize (fun _ u v => ⟨u, v, fun _ _ => 0⟩) ⟨100, 50, fun _ _ => 7⟩ 640 640).width = 640 ∧
    (resize (fun _ u v => ⟨u, v, fun _ _ => 0⟩) ⟨100, 50, fun _ _ => 7⟩ 640 640).height = 640 :=
  ⟨(resize_letterbox_exact_target (fun _ u v => ⟨u, v, fun _ _ => 0⟩) ⟨100, 50, fun _ _ => 7⟩
      640 640 (by norm_num) (by norm_num) (by norm_num) (by norm_num)
      (fun a u v => ⟨rfl, rfl⟩)).1,
    (resize_letterbox_exact_target (fun _ u v => ⟨u, v, fun _ _ => 0⟩) ⟨100, 50, fun _ _ => 7⟩
      640 640 (by norm_num) (by norm_num) (by norm_num) (by norm_num)
      (fun a u v => ⟨rfl, rfl⟩)).2.1⟩

end DefectDetection
